import Mathlib

/-!
Verification of the quantized linear-model subsystem
(`src/concrete/ml/sklearn/linear_model.py`).

The Python source is shallowly embedded: numpy 2-D arrays become a `shape`
list together with a list of rows of real numbers, the mutable Python heap
for feature arrays becomes an explicit `Store`, exceptions become `Except`,
and the external collaborators (the sklearn trainer, the input validators,
the ONNX tracer and the quantization driver) become abstract function
parameters bundled in `Externals` / `InferExternals`.
-/

namespace ConcreteML

/-- A numpy `ndarray` value: its `shape` and (for 2-D use) its rows. -/
structure PyArr where
  shape : List ℕ
  data : List (List ℝ)

/-- `X.shape[1] if len(X.shape) > 1 else X.shape[0]` (source line 82). -/
def np_input_shape (X : PyArr) : ℕ :=
  if X.shape.length > 1 then X.shape.getD 1 0 else X.shape.getD 0 0

/-- `y.shape[1] if len(y.shape) > 1 else 1` (source line 83). -/
def np_target_number (y : PyArr) : ℕ :=
  if y.shape.length > 1 then y.shape.getD 1 0 else 1

/-- numpy `a.size`: the product of the dimensions. -/
def np_size (a : PyArr) : ℕ := a.shape.prod

/-- numpy `a[:1]`: the first row of `a`, kept 2-D (source line 118). -/
def np_take1 (a : PyArr) : PyArr :=
  ⟨min 1 (a.shape.headD 0) :: a.shape.tail, a.data.take 1⟩

/-- One row of `numpy.exp(y) / numpy.sum(numpy.exp(y), axis=1, keepdims=True)`
(source lines 313-314): the raw, unstabilized exponential normalization. -/
noncomputable def softmax_row (r : List ℝ) : List ℝ :=
  r.map (fun s => Real.exp s / (r.map Real.exp).sum)

/-- `LogisticRegression.post_processing` (source lines 304-315).  The
`dequant` parameter stands for `super().post_processing`, the base-class
dequantization step that is skipped when `already_dequantized` is true. -/
noncomputable def post_processing (dequant : PyArr → PyArr) (y_preds : PyArr)
    (already_dequantized : Bool) : PyArr :=
  let y := if already_dequantized then y_preds else dequant y_preds
  if y.shape.getD 1 0 = 1 then
    ⟨[y.shape.getD 0 0, 2], y.data.map (fun r => r.map (fun p => 1 - p) ++ r)⟩
  else
    ⟨y.shape, y.data.map softmax_row⟩

/-- `numpy.argmax` on one row: the index of the first occurrence of the
maximal entry (numpy's documented first-maximum convention). -/
noncomputable def numpy_argmax (l : List ℝ) : ℕ :=
  l.findIdx (fun x => decide (∀ y ∈ l, y ≤ x))

/-- The external collaborators of the inference path: the array
validator/coercer `check_array_and_assert`, the quantized-graph execution,
and the output dequantization performed by the base class. -/
structure InferExternals where
  check_array : PyArr → PyArr
  run_model : Bool → PyArr → PyArr
  dequant : PyArr → PyArr

/-- Modelled from the spec: the base-class `predict` used by
`decision_function` is not under `src/`; per the spec it runs the quantized
artifact (optionally in FHE) and returns de-quantized raw scores. -/
def base_linear_predict (e : InferExternals) (X : PyArr) (execute_in_fhe : Bool) : PyArr :=
  e.dequant (e.run_model execute_in_fhe X)

/-- `LogisticRegression.decision_function` (source lines 317-328):
delegates to the base-class `predict`. -/
def decision_function (e : InferExternals) (X : PyArr) (execute_in_fhe : Bool) : PyArr :=
  base_linear_predict e X execute_in_fhe

/-- `LogisticRegression.predict_proba` (source lines 330-344). -/
noncomputable def predict_proba (e : InferExternals) (X : PyArr) (execute_in_fhe : Bool) :
    PyArr :=
  let X1 := e.check_array X
  post_processing e.dequant (decision_function e X1 execute_in_fhe) true

/-- `LogisticRegression.predict` (source lines 346-350). -/
noncomputable def predict (e : InferExternals) (X : PyArr) (execute_in_fhe : Bool) :
    List ℕ :=
  let X1 := e.check_array X
  (predict_proba e X1 execute_in_fhe).data.map numpy_argmax

/-! ### The fit path of `LinearRegression` with the sum workaround

Feature arrays are passed by reference in Python; `Store` models that heap
so that `copy.deepcopy` (source line 93) and in-place mutation by the
external sklearn trainer are observable.
-/

/-- The default value an out-of-range heap read returns (never reached in
the modelled runs). -/
def emptyArr : PyArr := ⟨[], []⟩

/-- A heap of numpy arrays; references are indices into `mem`. -/
structure Store where
  mem : List PyArr

def Store.read (s : Store) (r : ℕ) : PyArr := s.mem.getD r emptyArr

/-- `copy.deepcopy`: a fresh array whose reference is `s.mem.length`. -/
def Store.alloc (s : Store) (v : PyArr) : Store := ⟨s.mem ++ [v]⟩

/-- In-place mutation of the array at reference `r`. -/
def Store.write (s : Store) (r : ℕ) (v : PyArr) : Store := ⟨s.mem.set r v⟩

/-- A fitted sklearn linear model: `coef_` and `intercept_`. -/
structure SkModel where
  coef : List ℝ
  intercept : ℝ

/-- `_LinearRegressionTorchModel(weights, bias)` (source lines 112-115). -/
structure TorchModel where
  weights : List ℝ
  bias : ℝ

/-- `NumpyModule(torch_model, dummy_input=torch.from_numpy(X[:1]))`
(source line 118).  `torch.from_numpy` shares memory with its argument, so
the module retains the reference `dummy_ref` of the array its dummy input
views, besides the traced `onnx_model`.  `O` is the collaborator's opaque
graph type. -/
structure NumpyModule (O : Type) where
  model : TorchModel
  dummy_ref : ℕ
  onnx_model : O

/-- The quantized artifact stored in `self.quantized_module_`
(source line 129): the module it was built from plus the calibration
metadata `calib` produced by the quantization driver (`Q` is the
collaborator's opaque metadata type). -/
structure QuantModule (O Q : Type) where
  numpy_module : NumpyModule O
  calib : Q

/-- A value in the sklearn hyperparameter dictionary. -/
inductive PVal where
  | nat : ℕ → PVal
  | bool : Bool → PVal
  | str : String → PVal
  | noneV : PVal

def opt_nat_val : Option ℕ → PVal
  | none => PVal.noneV
  | some n => PVal.nat n

/-- The state of a `LinearRegression` instance: the constructor arguments
(source lines 37-57) plus the attributes assigned by `fit`. -/
structure LinearRegression (O Q : Type) where
  n_bits : ℕ
  use_sum_workaround : Bool
  fit_intercept : Bool
  normalize : String
  copy_X : Bool
  n_jobs : Option ℕ
  positive : Bool
  sklearn_model : Option SkModel
  onnx_model : Option O
  quantized_module : Option (QuantModule O Q)

/-- sklearn's `get_params()`: the constructor arguments, keyed by name
(sklearn returns them sorted alphabetically). -/
def get_params {O Q : Type} (m : LinearRegression O Q) : List (String × PVal) :=
  [("copy_X", PVal.bool m.copy_X),
   ("fit_intercept", PVal.bool m.fit_intercept),
   ("n_bits", PVal.nat m.n_bits),
   ("n_jobs", opt_nat_val m.n_jobs),
   ("normalize", PVal.str m.normalize),
   ("positive", PVal.bool m.positive),
   ("use_sum_workaround", PVal.bool m.use_sum_workaround)]

/-- Python `dict.pop(k, None)`: remove the entry with key `k`. -/
def dict_pop (d : List (String × PVal)) (k : String) : List (String × PVal) :=
  d.filter (fun p => p.1 != k)

/-- `params.pop("n_bits", None); params.pop("use_sum_workaround", None)`
(source lines 100-101). -/
def stripped_params {O Q : Type} (m : LinearRegression O Q) : List (String × PVal) :=
  dict_pop (dict_pop (get_params m) "n_bits") "use_sum_workaround"

/-- The condition asserted at source line 86:
`(input_shape != 0) and (input_shape & (input_shape - 1) == 0) and target_number == 1`. -/
def sum_workaround_precondition (input_shape target_number : ℕ) : Bool :=
  (input_shape != 0) && ((input_shape &&& (input_shape - 1)) == 0) && (target_number == 1)

/-- The assertion message of source lines 87-89 (the Python f-string
concatenation has no space between "target(s)" and "were"). -/
def sum_workaround_msg (input_shape target_number : ℕ) : String :=
  "The sum workaround currently only handles N features with N a power of 2 and " ++
    "single target values while " ++ toString input_shape ++ " features and " ++
    toString target_number ++ " target(s)" ++ "were given."

/-- The external collaborators of the fit path: the base-class fit, the
`check_X_y_and_assert` coercer, the sklearn trainer (which receives the
hyperparameter dictionary and may mutate its input array in place, hence
also returns the array value), the ONNX tracer behind `NumpyModule`, and
the quantization driver
`PostTrainingAffineQuantization(n_bits, numpy_model, is_signed).quantize_module(X)`. -/
structure Externals (O Q : Type) where
  super_fit : LinearRegression O Q → PyArr → PyArr → LinearRegression O Q
  check_X_y : PyArr → PyArr → Bool → PyArr × PyArr
  sklearn_fit : List (String × PVal) → PyArr → PyArr → SkModel × PyArr
  trace : TorchModel → PyArr → O
  quantize : ℕ → NumpyModule O → Bool → PyArr → Q

/-- The body of `LinearRegression.fit` after the precondition passes
(source lines 92-131): deep-copy `X`, validate, strip the quantization
hyperparameters, fit the sklearn model, extract weights and bias, build
the torch model and the numpy module (dummy input `X[:1]`), store the onnx
model, and quantize with calibration set `X`. -/
def fit_workaround_run {O Q : Type} (ext : Externals O Q) (m : LinearRegression O Q)
    (s : Store) (rX : ℕ) (y : PyArr) : LinearRegression O Q × Store :=
  let rX1 := s.mem.length
  let s1 := s.alloc (s.read rX)
  let c := ext.check_X_y (s1.read rX1) y (decide (np_size y > 1))
  let s2 := s1.write rX1 c.1
  let skf := ext.sklearn_fit (stripped_params m) (s2.read rX1) c.2
  let s3 := s2.write rX1 skf.2
  let tm : TorchModel := ⟨skf.1.coef, skf.1.intercept⟩
  let nm : NumpyModule O := ⟨tm, rX1, ext.trace tm (np_take1 (s3.read rX1))⟩
  let qm : QuantModule O Q := ⟨nm, ext.quantize m.n_bits nm true (s3.read rX1)⟩
  (⟨m.n_bits, m.use_sum_workaround, m.fit_intercept, m.normalize, m.copy_X,
    m.n_jobs, m.positive, some skf.1, some nm.onnx_model, some qm⟩, s3)

/-- `LinearRegression.fit` (source lines 60-131).  A raised
`AssertionError`/`PreconditionError` is an `Except.error` carrying the
message together with the model state and heap at the moment of the raise. -/
def fit {O Q : Type} (ext : Externals O Q) (m : LinearRegression O Q) (s : Store)
    (rX : ℕ) (y : PyArr) :
    Except (String × LinearRegression O Q × Store) (LinearRegression O Q × Store) :=
  if !m.use_sum_workaround then .ok (ext.super_fit m (s.read rX) y, s)
  else
    let input_shape := np_input_shape (s.read rX)
    let target_number := np_target_number y
    if sum_workaround_precondition input_shape target_number then
      .ok (fit_workaround_run ext m s rX y)
    else
      .error (sum_workaround_msg input_shape target_number, m, s)

/-! ### Spec-side names for the values flowing through the fit chain -/

/-- The validated/coerced pair `X, y` (source line 96); by the deep copy,
the value validated is the value of the caller's array at call time. -/
def fit_checked {O Q : Type} (ext : Externals O Q) (s : Store) (rX : ℕ) (y : PyArr) :
    PyArr × PyArr :=
  ext.check_X_y (s.read rX) y (decide (np_size y > 1))

/-- The fitted sklearn model and the (possibly in-place mutated) training
array after source line 105. -/
def fit_sk {O Q : Type} (ext : Externals O Q) (m : LinearRegression O Q) (s : Store)
    (rX : ℕ) (y : PyArr) : SkModel × PyArr :=
  ext.sklearn_fit (stripped_params m) (fit_checked ext s rX y).1 (fit_checked ext s rX y).2

/-- The torch model built from the extracted weights and bias
(source lines 108-115). -/
def fit_torch_model {O Q : Type} (ext : Externals O Q) (m : LinearRegression O Q)
    (s : Store) (rX : ℕ) (y : PyArr) : TorchModel :=
  ⟨(fit_sk ext m s rX y).1.coef, (fit_sk ext m s rX y).1.intercept⟩

/-- The numpy module built at source line 118: dummy input `X[:1]`, which
aliases the deep copy living at reference `s.mem.length`. -/
def fit_numpy_module {O Q : Type} (ext : Externals O Q) (m : LinearRegression O Q)
    (s : Store) (rX : ℕ) (y : PyArr) : NumpyModule O :=
  ⟨fit_torch_model ext m s rX y, s.mem.length,
    ext.trace (fit_torch_model ext m s rX y) (np_take1 (fit_sk ext m s rX y).2)⟩

/-- Modelled from the spec: the base-class prediction path is not under
`src/`; per the spec, a fitted artifact's behavior on a sample is a function
of its reachable state — its calibration metadata, its traced graph, its
weights, and the heap contents at the array reference it retains through
its dummy input. -/
def artifact_behavior {O Q : Type} (s : Store) (q : QuantModule O Q) (x : List ℝ) :
    Q × O × TorchModel × PyArr × List ℝ :=
  (q.calib, q.numpy_module.onnx_model, q.numpy_module.model,
    s.read q.numpy_module.dummy_ref, x)

/-! ### Concrete instances used by witnesses and counterexamples -/

/-- Trivial instantiation of the fit-path collaborators. -/
def triv_externals : Externals Unit Unit :=
  ⟨fun m _ _ => m, fun a b _ => (a, b), fun _ X _ => (⟨[], 0⟩, X),
    fun _ _ => (), fun _ _ _ _ => ()⟩

/-- A `LinearRegression` instance with the sum workaround enabled and the
constructor defaults otherwise. -/
def model0 : LinearRegression Unit Unit :=
  ⟨2, true, true, "deprecated", true, none, false, none, none, none⟩

/-- A one-sample, one-feature training heap (one feature is a power of
two, so the precondition passes). -/
def s_ok : Store := ⟨[⟨[1, 1], [[0]]⟩]⟩

/-- A single-column target for `s_ok`. -/
def y_ok : PyArr := ⟨[1], [[0]]⟩

/-! ### Helper lemmas about `numpy_argmax` -/

lemma exists_max (l : List ℝ) (h : l ≠ []) : ∃ x ∈ l, ∀ z ∈ l, z ≤ x := by
  induction l with
  | nil => exact absurd rfl h
  | cons a t ih =>
    by_cases ht : t = []
    · subst ht
      exact ⟨a, List.mem_cons_self a [], fun z hz => by
        rcases List.mem_singleton.mp hz with rfl; exact le_rfl⟩
    · obtain ⟨x, hx, hmax⟩ := ih ht
      rcases le_total a x with hax | hxa
      · refine ⟨x, List.mem_cons_of_mem a hx, fun z hz => ?_⟩
        rcases List.mem_cons.mp hz with rfl | hz
        · exact hax
        · exact hmax z hz
      · refine ⟨a, List.mem_cons_self a t, fun z hz => ?_⟩
        rcases List.mem_cons.mp hz with rfl | hz
        · exact le_rfl
        · exact (hmax z hz).trans hxa

lemma numpy_argmax_lt_length {l : List ℝ} (h : l ≠ []) : numpy_argmax l < l.length := by
  obtain ⟨x, hx, hmax⟩ := exists_max l h
  exact List.findIdx_lt_length_of_exists ⟨x, hx, by simpa using hmax⟩

lemma numpy_argmax_is_max {l : List ℝ} (h : numpy_argmax l < l.length) :
    ∀ z ∈ l, z ≤ l[numpy_argmax l] := by
  have hfi := @List.findIdx_getElem ℝ (fun x => decide (∀ z ∈ l, z ≤ x)) l h
  simpa using hfi

lemma numpy_argmax_le {l : List ℝ} {i : ℕ} (hi : i < l.length)
    (hmax : ∀ z ∈ l, z ≤ l[i]) : numpy_argmax l ≤ i := by
  by_contra hcon
  push_neg at hcon
  have hfalse := @List.not_of_lt_findIdx ℝ (fun x => decide (∀ z ∈ l, z ≤ x)) l i hcon
  simp only [decide_eq_false_iff_not] at hfalse
  exact hfalse hmax

/-! ### Helper lemmas about `post_processing` -/

lemma post_processing_binary (d : PyArr → PyArr) (y : PyArr)
    (h1 : y.shape.getD 1 0 = 1) :
    post_processing d y true =
      ⟨[y.shape.getD 0 0, 2], y.data.map (fun r => r.map (fun p => 1 - p) ++ r)⟩ := by
  simp only [List.getD_eq_getElem?_getD] at h1 ⊢
  simp [post_processing, h1]

lemma post_processing_multi (d : PyArr → PyArr) (y : PyArr)
    (h1 : y.shape.getD 1 0 ≠ 1) :
    post_processing d y true = ⟨y.shape, y.data.map softmax_row⟩ := by
  simp only [List.getD_eq_getElem?_getD] at h1
  simp [post_processing, h1]

lemma sum_map_div (l : List ℝ) (c : ℝ) : (l.map (fun x => x / c)).sum = l.sum / c := by
  induction l with
  | nil => simp
  | cons a t ih => simp [ih, add_div]

lemma softmax_row_eq (r : List ℝ) :
    softmax_row r = (r.map Real.exp).map (fun t => t / (r.map Real.exp).sum) := by
  rw [softmax_row, List.map_map]
  rfl

lemma softmax_row_sum {r : List ℝ} (h : r ≠ []) : (softmax_row r).sum = 1 := by
  have hpos : 0 < (r.map Real.exp).sum := by
    refine List.sum_pos _ (fun x hx => ?_) (by simpa using h)
    obtain ⟨s, _, rfl⟩ := List.mem_map.mp hx
    exact Real.exp_pos s
  rw [softmax_row_eq, sum_map_div, div_self hpos.ne']

lemma softmax_row_nonneg (r : List ℝ) : ∀ x ∈ softmax_row r, 0 ≤ x := by
  intro x hx
  obtain ⟨s, _, rfl⟩ := List.mem_map.mp hx
  refine div_nonneg (Real.exp_pos s).le (List.sum_nonneg fun t ht => ?_)
  obtain ⟨u, _, rfl⟩ := List.mem_map.mp ht
  exact (Real.exp_pos u).le

lemma softmax_row_length (r : List ℝ) : (softmax_row r).length = r.length := by
  simp [softmax_row]

lemma softmax_row_replicate {k : ℕ} (hk : k ≠ 0) (c : ℝ) :
    softmax_row (List.replicate k c) = List.replicate k ((k : ℝ)⁻¹) := by
  have hS : ((List.replicate k c).map Real.exp).sum = (k : ℝ) * Real.exp c := by
    simp [List.map_replicate, List.sum_replicate, nsmul_eq_mul]
  have h1 : (k : ℝ) ≠ 0 := Nat.cast_ne_zero.mpr hk
  have h2 : Real.exp c ≠ 0 := (Real.exp_pos c).ne'
  simp only [softmax_row, hS, List.map_replicate]
  congr 1
  field_simp
  ring

/-! ### Helper lemmas about the heap -/

lemma Store.read_alloc_self (s : Store) (v : PyArr) :
    (s.alloc v).read s.mem.length = v := by
  simp [Store.read, Store.alloc, List.getD_eq_getElem?_getD, List.getElem?_concat_length]

lemma Store.read_alloc_of_lt {s : Store} {r : ℕ} (h : r < s.mem.length) (v : PyArr) :
    (s.alloc v).read r = s.read r := by
  simp [Store.read, Store.alloc, List.getD_eq_getElem?_getD, List.getElem?_append, h]

lemma Store.read_write_self {s : Store} {r : ℕ} (h : r < s.mem.length) (v : PyArr) :
    (s.write r v).read r = v := by
  simp [Store.read, Store.write, List.getD_eq_getElem?_getD, List.getElem?_set_self h]

lemma Store.read_write_of_ne {s : Store} {r r2 : ℕ} (h : r ≠ r2) (v : PyArr) :
    (s.write r2 v).read r = s.read r := by
  simp [Store.read, Store.write, List.getD_eq_getElem?_getD,
    List.getElem?_set_ne (Ne.symm h)]

lemma Store.length_write (s : Store) (r : ℕ) (v : PyArr) :
    (s.write r v).mem.length = s.mem.length := by
  simp [Store.write]

lemma Store.length_alloc (s : Store) (v : PyArr) :
    (s.alloc v).mem.length = s.mem.length + 1 := by
  simp [Store.alloc]

/-! ### Helper lemmas about the hyperparameter dictionary -/

lemma lookup_dict_pop_self (d : List (String × PVal)) (a : String) :
    (dict_pop d a).lookup a = none := by
  induction d with
  | nil => rfl
  | cons p t ih =>
    obtain ⟨k, v⟩ := p
    by_cases h : k = a
    · simpa [dict_pop, List.filter_cons, h] using ih
    · have hbeq : (a == k) = false := beq_eq_false_iff_ne.mpr (Ne.symm h)
      simp only [dict_pop] at ih ⊢
      rw [List.filter_cons]
      simp only [bne_iff_ne, ne_eq, h, not_false_eq_true, if_true, List.lookup_cons, hbeq]
      exact ih

lemma lookup_dict_pop_ne (d : List (String × PVal)) {a k : String} (h : k ≠ a) :
    (dict_pop d a).lookup k = d.lookup k := by
  induction d with
  | nil => rfl
  | cons p t ih =>
    obtain ⟨b, v⟩ := p
    by_cases hb : b = a
    · subst hb
      have hbeq : (k == b) = false := beq_eq_false_iff_ne.mpr h
      simp only [dict_pop] at ih ⊢
      rw [List.filter_cons]
      simp only [bne_self_eq_false, if_false, List.lookup_cons, hbeq]
      exact ih
    · have hkeep : (b != a) = true := bne_iff_ne.mpr hb
      simp only [dict_pop] at ih ⊢
      rw [List.filter_cons]
      simp only [hkeep, if_true, List.lookup_cons]
      cases hkb : k == b
      · exact ih
      · rfl

/-! ### Helper lemmas about `fit` -/

lemma fit_eq_ok {O Q : Type} (ext : Externals O Q) (m : LinearRegression O Q)
    (s : Store) (rX : ℕ) (y : PyArr) (hW : m.use_sum_workaround = true)
    (hpre : sum_workaround_precondition (np_input_shape (s.read rX))
      (np_target_number y) = true) :
    fit ext m s rX y = .ok (fit_workaround_run ext m s rX y) := by
  simp [fit, hW, hpre]

lemma fit_eq_error {O Q : Type} (ext : Externals O Q) (m : LinearRegression O Q)
    (s : Store) (rX : ℕ) (y : PyArr) (hW : m.use_sum_workaround = true)
    (hpre : sum_workaround_precondition (np_input_shape (s.read rX))
      (np_target_number y) = false) :
    fit ext m s rX y =
      .error (sum_workaround_msg (np_input_shape (s.read rX)) (np_target_number y),
        m, s) := by
  simp [fit, hW, hpre]

lemma fit_workaround_run_eq {O Q : Type} (ext : Externals O Q)
    (m : LinearRegression O Q) (s : Store) (rX : ℕ) (y : PyArr) :
    fit_workaround_run ext m s rX y =
      (⟨m.n_bits, m.use_sum_workaround, m.fit_intercept, m.normalize, m.copy_X,
        m.n_jobs, m.positive, some (fit_sk ext m s rX y).1,
        some (fit_numpy_module ext m s rX y).onnx_model,
        some ⟨fit_numpy_module ext m s rX y,
          ext.quantize m.n_bits (fit_numpy_module ext m s rX y) true
            (fit_sk ext m s rX y).2⟩⟩,
       ((s.alloc (s.read rX)).write s.mem.length
          (fit_checked ext s rX y).1).write s.mem.length (fit_sk ext m s rX y).2) := by
  have h1 : (s.alloc (s.read rX)).read s.mem.length = s.read rX :=
    Store.read_alloc_self s _
  have hlen1 : s.mem.length < (s.alloc (s.read rX)).mem.length := by
    simp [Store.length_alloc]
  have h2 : ∀ v, ((s.alloc (s.read rX)).write s.mem.length v).read s.mem.length = v :=
    fun v => Store.read_write_self hlen1 v
  have hlen2 : ∀ v,
      s.mem.length < (((s.alloc (s.read rX)).write s.mem.length v)).mem.length := by
    intro v
    simpa [Store.length_write] using hlen1
  have h3 : ∀ v w,
      ((((s.alloc (s.read rX)).write s.mem.length v)).write s.mem.length w).read
        s.mem.length = w :=
    fun v w => Store.read_write_self (hlen2 v) w
  simp only [fit_workaround_run, fit_numpy_module, fit_torch_model, fit_sk,
    fit_checked, h1, h2, h3]

/-! ### Claims -/

/-- C1, counterexample: for a raw binary score array `[[0]]` with
`already_dequantized = true`, `post_processing` returns `[[1, 0]]`; it does
not apply the logistic function, whose value at `0` would be `1/2`, so the
claimed pair `(0.5, 0.5)` is not produced. -/
theorem C1_counterexample :
    (post_processing (fun a => a) ⟨[1, 1], [[0]]⟩ true).data = [[1, 0]] ∧
    (1 : ℝ) / (1 + Real.exp (-0)) = 1 / 2 ∧ (0 : ℝ) ≠ 1 / 2 := by
  refine ⟨?_, ?_, by norm_num⟩
  · rw [post_processing_binary (fun a => a) ⟨[1, 1], [[0]]⟩ rfl]
    norm_num
  · rw [neg_zero, Real.exp_zero]
    norm_num

/-- C1, amended: for every raw score array of shape `(n, 1)`,
`post_processing` with `already_dequantized = true` returns two columns per
row that sum to 1; the second column is the raw value unchanged (the
sigmoid is assumed to have been applied inside the quantized graph and is
never re-applied), and the first column is one minus it. -/
theorem C1_amended (d : PyArr → PyArr) (y : PyArr) (h1 : y.shape.getD 1 0 = 1)
    (hrect : ∀ r ∈ y.data, r.length = 1) :
    (post_processing d y true).shape = [y.shape.getD 0 0, 2] ∧
    (post_processing d y true).data =
      y.data.map (fun r => [1 - r.headD 0, r.headD 0]) ∧
    ∀ r ∈ (post_processing d y true).data, r.sum = 1 := by
  rw [post_processing_binary d y h1]
  refine ⟨rfl, ?_, ?_⟩
  · refine List.map_congr_left fun r hr => ?_
    obtain ⟨p, rfl⟩ := List.length_eq_one.mp (hrect r hr)
    simp
  · intro r hr
    simp only [List.mem_map] at hr
    obtain ⟨r0, hr0, rfl⟩ := hr
    obtain ⟨p, rfl⟩ := List.length_eq_one.mp (hrect r0 hr0)
    simp

/-- C1, amended, witness at the raw value `1/2`. -/
theorem C1_amended_witness :
    (post_processing (fun a => a) ⟨[1, 1], [[(1 : ℝ) / 2]]⟩ true).data =
      [[1 - (1 : ℝ) / 2, (1 : ℝ) / 2]] := by
  have h := C1_amended (fun a => a) ⟨[1, 1], [[(1 : ℝ) / 2]]⟩ rfl (by simp)
  rw [h.2.1]
  simp

/-- C3: for raw score rows of length `k ≥ 2` and `already_dequantized =
true`, `post_processing` exponentiates every entry and divides by the row
sum (no max-subtraction), every output entry is nonnegative, every output
row sums to 1, and a row of `k` equal scores maps to the uniform vector. -/
theorem C3_softmax (d : PyArr → PyArr) (y : PyArr) (k : ℕ) (hk : 2 ≤ k)
    (hcols : y.shape.getD 1 0 = k) (hrect : ∀ r ∈ y.data, r.length = k) :
    (post_processing d y true).shape = y.shape ∧
    (post_processing d y true).data = y.data.map softmax_row ∧
    (∀ r ∈ (post_processing d y true).data, (∀ x ∈ r, 0 ≤ x) ∧ r.sum = 1) ∧
    ∀ c : ℝ, softmax_row (List.replicate k c) = List.replicate k ((k : ℝ)⁻¹) := by
  have hne : y.shape.getD 1 0 ≠ 1 := by omega
  rw [post_processing_multi d y hne]
  refine ⟨rfl, rfl, ?_, fun c => softmax_row_replicate (by omega) c⟩
  intro r hr
  simp only [List.mem_map] at hr
  obtain ⟨r0, hr0, rfl⟩ := hr
  have hr0ne : r0 ≠ [] := by
    intro hc
    rw [hc] at hr0
    have := hrect [] hr0
    simp at this
    omega
  exact ⟨softmax_row_nonneg r0, softmax_row_sum hr0ne⟩

/-- C3, witness: three equal scores yield the uniform distribution. -/
theorem C3_softmax_witness :
    (2 : ℕ) ≤ 3 ∧
    (post_processing (fun a => a) ⟨[1, 3], [[1, 1, 1]]⟩ true).data =
      [List.replicate 3 ((3 : ℝ)⁻¹)] := by
  have h := C3_softmax (fun a => a) ⟨[1, 3], [[1, 1, 1]]⟩ 3 (by norm_num) rfl
    (by simp)
  refine ⟨by norm_num, ?_⟩
  rw [h.2.1]
  have hmap : ([[(1 : ℝ), 1, 1]] : List (List ℝ)).map softmax_row =
      [softmax_row [1, 1, 1]] := by simp
  rw [hmap]
  have hrep : ([1, 1, 1] : List ℝ) = List.replicate 3 1 := rfl
  rw [hrep, h.2.2.2 1]
  norm_num

/-- C4: `predict` maps `numpy_argmax` over the rows of the probabilities
returned by `predict_proba`, and `numpy_argmax` returns the first index
attaining the row maximum: on any row it is in range, attains the maximal
value, and is at most any index holding the maximal value (lowest-index
tie-break). -/
theorem C4_predict_argmax :
    (∀ (e : InferExternals) (X : PyArr) (fhe : Bool),
        predict e X fhe =
          (predict_proba e (e.check_array X) fhe).data.map numpy_argmax) ∧
    ∀ (l : List ℝ) (i : ℕ) (hi : i < l.length), (∀ z ∈ l, z ≤ l[i]) →
      numpy_argmax l < l.length ∧ numpy_argmax l ≤ i ∧
        l.getD (numpy_argmax l) 0 = l[i] := by
  constructor
  · intro e X fhe
    rfl
  · intro l i hi hmax
    have hne : l ≠ [] := by
      intro hc
      rw [hc] at hi
      simp at hi
    have hlt := numpy_argmax_lt_length hne
    refine ⟨hlt, numpy_argmax_le hi hmax, ?_⟩
    rw [List.getD_eq_getElem l 0 hlt]
    exact le_antisymm (hmax _ (List.getElem_mem hlt))
      (numpy_argmax_is_max hlt _ (List.getElem_mem hi))

/-- C4, witness: an exact two-way tie resolves to index 0. -/
theorem C4_predict_argmax_witness :
    numpy_argmax [(1 : ℝ) / 2, 1 / 2] = 0 ∧
    [(1 : ℝ) / 2, 1 / 2].getD (numpy_argmax [(1 : ℝ) / 2, 1 / 2]) 0 = 1 / 2 := by
  have h := C4_predict_argmax.2 [(1 : ℝ) / 2, 1 / 2] 0 (by norm_num)
    (by
      intro z hz
      simp only [List.mem_cons, List.not_mem_nil, or_false] at hz
      rcases hz with rfl | rfl
      · simp [List.getElem_cons_zero]
      · simp [List.getElem_cons_zero])
  exact ⟨Nat.le_zero.mp h.2.1, by simpa using h.2.2⟩

/-- C8: `predict_proba` validates/coerces the samples, calls
`decision_function` (which runs the artifact and dequantizes once), and
post-processes with `already_dequantized = true`; with that flag the
dequantization step is skipped entirely, so the scores are never
dequantized a second time. -/
theorem C8_predict_proba_pipeline :
    (∀ (e : InferExternals) (X : PyArr) (fhe : Bool),
        predict_proba e X fhe =
          post_processing e.dequant (decision_function e (e.check_array X) fhe) true ∧
        decision_function e (e.check_array X) fhe =
          e.dequant (e.run_model fhe (e.check_array X))) ∧
    ∀ (d1 d2 : PyArr → PyArr) (y : PyArr),
      post_processing d1 y true = post_processing d2 y true := by
  exact ⟨fun e X fhe => ⟨rfl, rfl⟩, fun d1 d2 y => rfl⟩

/-- C10: with at least one raw column, `post_processing` with
`already_dequantized = true` outputs two columns for one-column input and
`k` columns for `k ≥ 2` columns, always at least two; every argmax label
over its rows is a valid class index below `max k 2`; and `predict` is
exactly that argmax over the post-processed rows. -/
theorem C10_shape_labels :
    (∀ (d : PyArr → PyArr) (y : PyArr) (k : ℕ), y.shape.getD 1 0 = k → 1 ≤ k →
        (∀ r ∈ y.data, r.length = k) →
        (post_processing d y true).shape.getD 1 0 = (if k = 1 then 2 else k) ∧
        2 ≤ (post_processing d y true).shape.getD 1 0 ∧
        ∀ lab ∈ (post_processing d y true).data.map numpy_argmax, lab < max k 2) ∧
    ∀ (e : InferExternals) (X : PyArr) (fhe : Bool),
      predict e X fhe =
        (post_processing e.dequant
            (decision_function e (e.check_array (e.check_array X)) fhe)
            true).data.map numpy_argmax := by
  constructor
  · intro d y k hcols hk hrect
    by_cases hk1 : k = 1
    · subst hk1
      rw [post_processing_binary d y hcols]
      refine ⟨rfl, by norm_num, ?_⟩
      intro lab hlab
      rcases List.mem_map.mp hlab with ⟨r0, hr0, rfl⟩
      rcases List.mem_map.mp hr0 with ⟨r1, hr1, rfl⟩
      have hlen : (r1.map (fun p => 1 - p) ++ r1).length = 2 := by
        simp [hrect r1 hr1]
      have hne : r1.map (fun p => 1 - p) ++ r1 ≠ [] := by
        intro hc
        rw [hc] at hlen
        simp at hlen
      have := numpy_argmax_lt_length hne
      rw [hlen] at this
      omega
    · have hne : y.shape.getD 1 0 ≠ 1 := by omega
      rw [post_processing_multi d y hne]
      refine ⟨by rw [hcols]; simp [hk1], by rw [hcols]; omega, ?_⟩
      intro lab hlab
      rcases List.mem_map.mp hlab with ⟨r0, hr0, rfl⟩
      rcases List.mem_map.mp hr0 with ⟨r1, hr1, rfl⟩
      have hlen : (softmax_row r1).length = k := by
        rw [softmax_row_length, hrect r1 hr1]
      have hne2 : softmax_row r1 ≠ [] := by
        intro hc
        rw [hc] at hlen
        simp at hlen
        omega
      have := numpy_argmax_lt_length hne2
      rw [hlen] at this
      omega
  · intro e X fhe
    rfl

/-- C10, witness: a one-column input produces two columns. -/
theorem C10_shape_labels_witness :
    (post_processing (fun a => a) ⟨[1, 1], [[(0 : ℝ)]]⟩ true).shape.getD 1 0 =
      (if 1 = 1 then 2 else 1) ∧
    2 ≤ (post_processing (fun a => a) ⟨[1, 1], [[(0 : ℝ)]]⟩ true).shape.getD 1 0 := by
  have h := C10_shape_labels.1 (fun a => a) ⟨[1, 1], [[(0 : ℝ)]]⟩ 1 rfl (by norm_num)
    (by simp)
  exact ⟨h.1, h.2.1⟩

/-- C9: when the sum workaround is requested and its precondition fails,
`fit` raises immediately: the error carries the model state and the heap
exactly as they were at entry — no deep copy was allocated, no coercion
ran, and no model attribute was assigned. -/
theorem C9_atomic_precondition {O Q : Type} (ext : Externals O Q)
    (m : LinearRegression O Q) (s : Store) (rX : ℕ) (y : PyArr)
    (hW : m.use_sum_workaround = true)
    (hpre : sum_workaround_precondition (np_input_shape (s.read rX))
      (np_target_number y) = false) :
    fit ext m s rX y =
      .error (sum_workaround_msg (np_input_shape (s.read rX)) (np_target_number y),
        m, s) :=
  fit_eq_error ext m s rX y hW hpre

/-- C9, witness: three features, untouched state and heap in the error. -/
theorem C9_atomic_precondition_witness :
    fit triv_externals model0 ⟨[⟨[4, 3], []⟩]⟩ 0 ⟨[4], []⟩ =
      .error (sum_workaround_msg 3 1, model0, ⟨[⟨[4, 3], []⟩]⟩) := by
  have h := C9_atomic_precondition triv_externals model0 ⟨[⟨[4, 3], []⟩]⟩ 0
    ⟨[4], []⟩ rfl rfl
  exact h

/-- C2, counterexample: with `N = 4` features (a power of two by the
claim's own test) and a target of shape `(4, 0)` — which does not have
more than one column — `fit` with the workaround enabled still fails, so
the claimed "exactly when" equivalence is false. -/
theorem C2_counterexample :
    ((4 : ℕ) ≠ 0 ∧ 4 &&& (4 - 1) = 0) ∧
    ¬ 1 < np_target_number ⟨[4, 0], []⟩ ∧
    fit triv_externals model0 ⟨[⟨[4, 4], []⟩]⟩ 0 ⟨[4, 0], []⟩ =
      .error (sum_workaround_msg 4 0, model0, ⟨[⟨[4, 4], []⟩]⟩) := by
  refine ⟨by decide, by decide, ?_⟩
  have h := fit_eq_error triv_externals model0 ⟨[⟨[4, 4], []⟩]⟩ 0 ⟨[4, 0], []⟩
    rfl rfl
  exact h

/-- C2, amended: for a 2-D feature table with `N` columns, `fit` with the
workaround enabled fails with the precondition error — whose message names
both dimensions — exactly when `N = 0`, or `N & (N-1) ≠ 0`, or the
target's column count (`y.shape[1]` for multi-dimensional `y`, else 1)
differs from one (in particular also for zero-column targets); otherwise
the check passes and fitting proceeds. -/
theorem C2_amended {O Q : Type} (ext : Externals O Q) (m : LinearRegression O Q)
    (s : Store) (rX : ℕ) (y : PyArr) (n N : ℕ)
    (hW : m.use_sum_workaround = true) (hX : (s.read rX).shape = [n, N]) :
    (sum_workaround_precondition N (np_target_number y) = true ↔
      (N ≠ 0 ∧ N &&& (N - 1) = 0 ∧ np_target_number y = 1)) ∧
    (¬(N ≠ 0 ∧ N &&& (N - 1) = 0 ∧ np_target_number y = 1) →
      fit ext m s rX y = .error (sum_workaround_msg N (np_target_number y), m, s)) ∧
    ((N ≠ 0 ∧ N &&& (N - 1) = 0 ∧ np_target_number y = 1) →
      fit ext m s rX y = .ok (fit_workaround_run ext m s rX y)) ∧
    (∃ u w : List Char, (sum_workaround_msg N (np_target_number y)).data =
      u ++ (toString N).data ++ w) ∧
    (∃ u w : List Char, (sum_workaround_msg N (np_target_number y)).data =
      u ++ (toString (np_target_number y)).data ++ w) := by
  have hNin : np_input_shape (s.read rX) = N := by
    simp [np_input_shape, hX]
  have hiff : sum_workaround_precondition N (np_target_number y) = true ↔
      (N ≠ 0 ∧ N &&& (N - 1) = 0 ∧ np_target_number y = 1) := by
    simp [sum_workaround_precondition, Bool.and_eq_true, bne_iff_ne, beq_iff_eq,
      and_assoc]
  refine ⟨hiff, ?_, ?_, ?_, ?_⟩
  · intro hnot
    have hfalse : sum_workaround_precondition N (np_target_number y) = false := by
      rcases Bool.eq_false_or_eq_true
          (sum_workaround_precondition N (np_target_number y)) with h | h
      · exact absurd (hiff.mp h) hnot
      · exact h
    have := fit_eq_error ext m s rX y hW (by rw [hNin]; exact hfalse)
    rw [hNin] at this
    exact this
  · intro hyes
    exact fit_eq_ok ext m s rX y hW (by rw [hNin]; exact hiff.mpr hyes)
  · refine ⟨("The sum workaround currently only handles N features with N a power " ++
      "of 2 and " ++ "single target values while ").data,
      (" features and " ++ toString (np_target_number y) ++ " target(s)" ++
        "were given.").data, ?_⟩
    simp [sum_workaround_msg, String.data_append, List.append_assoc]
  · refine ⟨("The sum workaround currently only handles N features with N a power " ++
      "of 2 and " ++ "single target values while " ++ toString N ++
      " features and ").data,
      (" target(s)" ++ "were given.").data, ?_⟩
    simp [sum_workaround_msg, String.data_append, List.append_assoc]

/-- C2, amended, witness: three features fail with a message naming "3". -/
theorem C2_amended_witness :
    fit triv_externals model0 ⟨[⟨[4, 3], []⟩]⟩ 0 ⟨[4, 1], []⟩ =
      .error (sum_workaround_msg 3 1, model0, ⟨[⟨[4, 3], []⟩]⟩) := by
  have h := C2_amended triv_externals model0 ⟨[⟨[4, 3], []⟩]⟩ 0 ⟨[4, 1], []⟩ 4 3
    rfl rfl
  exact h.2.1 (by decide)

/-- C5: with a valid caller reference and the workaround enabled, a
successful `fit` leaves the caller's feature array untouched (every
mutation during fitting hits the deep copy), and the stored artifact's
reachable state — hence its prediction behavior — is unaffected by any
later mutation of the caller's array, because the reference the artifact
retains is the fresh copy, never the caller's. -/
theorem C5_no_aliasing {O Q : Type} (ext : Externals O Q)
    (m : LinearRegression O Q) (s : Store) (rX : ℕ) (y : PyArr)
    (hW : m.use_sum_workaround = true)
    (hpre : sum_workaround_precondition (np_input_shape (s.read rX))
      (np_target_number y) = true)
    (hval : rX < s.mem.length) (m2 : LinearRegression O Q) (s2 : Store)
    (hfit : fit ext m s rX y = .ok (m2, s2)) :
    s2.read rX = s.read rX ∧
    ∀ q : QuantModule O Q, m2.quantized_module = some q →
      ∀ (v : PyArr) (x : List ℝ),
        artifact_behavior (s2.write rX v) q x = artifact_behavior s2 q x := by
  rw [fit_eq_ok ext m s rX y hW hpre, fit_workaround_run_eq] at hfit
  simp only [Except.ok.injEq, Prod.mk.injEq] at hfit
  obtain ⟨hm, hs⟩ := hfit
  have hne : rX ≠ s.mem.length := Nat.ne_of_lt hval
  constructor
  · rw [← hs, Store.read_write_of_ne hne, Store.read_write_of_ne hne,
      Store.read_alloc_of_lt hval]
  · intro q hq v x
    rw [← hm] at hq
    simp only [Option.some.injEq] at hq
    subst hq
    simp only [artifact_behavior, fit_numpy_module]
    rw [Store.read_write_of_ne (Ne.symm hne)]

/-- C5, witness at a one-feature, one-sample training set. -/
theorem C5_no_aliasing_witness :
    ((fit_workaround_run triv_externals model0 s_ok 0 y_ok).2).read 0 =
      s_ok.read 0 ∧
    artifact_behavior
        (((fit_workaround_run triv_externals model0 s_ok 0 y_ok).2).write 0 emptyArr)
        ⟨⟨⟨[], 0⟩, 1, ()⟩, ()⟩ [] =
      artifact_behavior ((fit_workaround_run triv_externals model0 s_ok 0 y_ok).2)
        ⟨⟨⟨[], 0⟩, 1, ()⟩, ()⟩ [] := by
  have h := C5_no_aliasing triv_externals model0 s_ok 0 y_ok rfl rfl
    (by simp [s_ok])
    (fit_workaround_run triv_externals model0 s_ok 0 y_ok).1
    (fit_workaround_run triv_externals model0 s_ok 0 y_ok).2
    (by rw [fit_eq_ok triv_externals model0 s_ok 0 y_ok rfl rfl])
  exact ⟨h.1, h.2 ⟨⟨⟨[], 0⟩, 1, ()⟩, ()⟩ rfl emptyArr []⟩

/-- C6: a successful workaround `fit` trains the sklearn model on exactly
the configured hyperparameters minus `n_bits` and `use_sum_workaround`:
those two keys are absent from the dictionary handed to the trainer and
every other key keeps its configured value. -/
theorem C6_param_strip {O Q : Type} (ext : Externals O Q)
    (m : LinearRegression O Q) (s : Store) (rX : ℕ) (y : PyArr)
    (hW : m.use_sum_workaround = true)
    (hpre : sum_workaround_precondition (np_input_shape (s.read rX))
      (np_target_number y) = true)
    (m2 : LinearRegression O Q) (s2 : Store)
    (hfit : fit ext m s rX y = .ok (m2, s2)) :
    m2.sklearn_model = some (fit_sk ext m s rX y).1 ∧
    (stripped_params m).lookup "n_bits" = none ∧
    (stripped_params m).lookup "use_sum_workaround" = none ∧
    ∀ k : String, k ≠ "n_bits" → k ≠ "use_sum_workaround" →
      (stripped_params m).lookup k = (get_params m).lookup k := by
  rw [fit_eq_ok ext m s rX y hW hpre, fit_workaround_run_eq] at hfit
  simp only [Except.ok.injEq, Prod.mk.injEq] at hfit
  obtain ⟨hm, hs⟩ := hfit
  refine ⟨by rw [← hm], ?_, lookup_dict_pop_self _ _, ?_⟩
  · rw [stripped_params, lookup_dict_pop_ne _ (by decide), lookup_dict_pop_self]
  · intro k hk1 hk2
    rw [stripped_params, lookup_dict_pop_ne _ hk2, lookup_dict_pop_ne _ hk1]

/-- C6, witness. -/
theorem C6_param_strip_witness :
    ((fit_workaround_run triv_externals model0 s_ok 0 y_ok).1).sklearn_model =
      some (fit_sk triv_externals model0 s_ok 0 y_ok).1 ∧
    (stripped_params (model0 : LinearRegression Unit Unit)).lookup "n_bits" =
      none := by
  have h := C6_param_strip triv_externals model0 s_ok 0 y_ok rfl rfl
    (fit_workaround_run triv_externals model0 s_ok 0 y_ok).1
    (fit_workaround_run triv_externals model0 s_ok 0 y_ok).2
    (by rw [fit_eq_ok triv_externals model0 s_ok 0 y_ok rfl rfl])
  exact ⟨h.1, h.2.1⟩

/-- C7: a successful workaround `fit` stores, as the quantized artifact,
the output of the quantization driver invoked with the configured
`n_bits`, signed quantization, the module built from the extracted weights
and bias (traced on the first row of the copied training table as the
shape-fixing template), and the full training table as calibration set. -/
theorem C7_quantize_args {O Q : Type} (ext : Externals O Q)
    (m : LinearRegression O Q) (s : Store) (rX : ℕ) (y : PyArr)
    (hW : m.use_sum_workaround = true)
    (hpre : sum_workaround_precondition (np_input_shape (s.read rX))
      (np_target_number y) = true)
    (m2 : LinearRegression O Q) (s2 : Store)
    (hfit : fit ext m s rX y = .ok (m2, s2)) :
    m2.quantized_module = some ⟨fit_numpy_module ext m s rX y,
      ext.quantize m.n_bits (fit_numpy_module ext m s rX y) true
        (fit_sk ext m s rX y).2⟩ ∧
    (fit_numpy_module ext m s rX y).onnx_model =
      ext.trace (fit_torch_model ext m s rX y) (np_take1 (fit_sk ext m s rX y).2) ∧
    (np_take1 (fit_sk ext m s rX y).2).data = ((fit_sk ext m s rX y).2).data.take 1 ∧
    m2.onnx_model = some (fit_numpy_module ext m s rX y).onnx_model := by
  rw [fit_eq_ok ext m s rX y hW hpre, fit_workaround_run_eq] at hfit
  simp only [Except.ok.injEq, Prod.mk.injEq] at hfit
  obtain ⟨hm, hs⟩ := hfit
  exact ⟨by rw [← hm], rfl, rfl, by rw [← hm]⟩

/-- C7, witness. -/
theorem C7_quantize_args_witness :
    ((fit_workaround_run triv_externals model0 s_ok 0 y_ok).1).quantized_module =
      some ⟨fit_numpy_module triv_externals model0 s_ok 0 y_ok,
        triv_externals.quantize model0.n_bits
          (fit_numpy_module triv_externals model0 s_ok 0 y_ok) true
          (fit_sk triv_externals model0 s_ok 0 y_ok).2⟩ := by
  have h := C7_quantize_args triv_externals model0 s_ok 0 y_ok rfl rfl
    (fit_workaround_run triv_externals model0 s_ok 0 y_ok).1
    (fit_workaround_run triv_externals model0 s_ok 0 y_ok).2
    (by rw [fit_eq_ok triv_externals model0 s_ok 0 y_ok rfl rfl])
  exact h.1

end ConcreteML
